import Mathlib

/-!
Verification of the quickwipe erase engine (main.go): the wipe loop of
wipeDevice, the write-speed benchmark loop of benchmarkWriteSpeed, the
aligned-buffer allocator allocAlignedBuffer, and the speed/ETA estimation
used for progress reporting.  The Go code is shallowly embedded: the byte
counters (int64 in Go, always non-negative here) become Nat, the float64
speed arithmetic becomes ℚ, and the I/O effects are replaced by the
assumption recorded in each claim (writes return the requested count,
seeks succeed), with explicit Bool parameters for the sync/seek results
where a claim is about error handling.
-/

namespace Quickwipe

/-- State of the wipe loop of wipeDevice (main.go:267-268, 280-315):
the two byte counters together with the list of write sizes and skip sizes
issued so far (the lists record what the loop handed to file.Write and
file.Seek; they are not variables of the Go code). -/
structure WipeState where
  bytesWritten : Nat
  bytesProcessed : Nat
  writes : List Nat
  skips : List Nat
  deriving DecidableEq

/-- Write size of one wipe iteration (main.go:288-291): bufferSize, clamped
to the remaining bytes when fewer than bufferSize remain. -/
def wipeWriteSize (size bufferSize bytesProcessed : Nat) : Nat :=
  if size - bytesProcessed < bufferSize then size - bytesProcessed else bufferSize

/-- Skip size of one wipe iteration (main.go:303-307):
bufferSize * (skipFactor - 1), clamped to the remaining bytes near the end
of the device. -/
def wipeSkipSize (size bufferSize skipFactor bytesProcessed : Nat) : Nat :=
  if bytesProcessed + bufferSize * (skipFactor - 1) > size then size - bytesProcessed
  else bufferSize * (skipFactor - 1)

/-- One iteration of the wipe loop body (main.go:280-315), assuming the
write succeeds and returns exactly the requested count (n = writeSize) and
the seek succeeds: write writeSize bytes, then, if skipFactor > 1 and bytes
remain, seek forward by the (clamped) skip size. -/
def wipeStep (size bufferSize skipFactor : Nat) (s : WipeState) : WipeState :=
  let writeSize := wipeWriteSize size bufferSize s.bytesProcessed
  if 1 < skipFactor ∧ s.bytesProcessed + writeSize < size then
    { bytesWritten := s.bytesWritten + writeSize
      bytesProcessed := s.bytesProcessed + writeSize
        + wipeSkipSize size bufferSize skipFactor (s.bytesProcessed + writeSize)
      writes := s.writes ++ [writeSize]
      skips := s.skips ++ [wipeSkipSize size bufferSize skipFactor (s.bytesProcessed + writeSize)] }
  else
    { bytesWritten := s.bytesWritten + writeSize
      bytesProcessed := s.bytesProcessed + writeSize
      writes := s.writes ++ [writeSize]
      skips := s.skips }

/-- The wipe loop (main.go:280): while bytesProcessed < size, run one
iteration.  Fuel-indexed so the function is a plain recursion on Nat; each
iteration processes at least one byte when bufferSize > 0, so fuel = size
is always enough (proved below). -/
def wipeLoop (size bufferSize skipFactor fuel : Nat) : WipeState → WipeState :=
  Nat.rec (motive := fun _ => WipeState → WipeState)
    (fun s => s)
    (fun _ ih s =>
      if s.bytesProcessed < size then ih (wipeStep size bufferSize skipFactor s) else s)
    fuel

/-- A full run of the wipe loop of wipeDevice from the initial counters
(main.go:267-268: both counters start at 0). -/
def wipeRun (size bufferSize skipFactor : Nat) : WipeState :=
  wipeLoop size bufferSize skipFactor size
    { bytesWritten := 0, bytesProcessed := 0, writes := [], skips := [] }

/-- Buffer-size alignment performed before allocation in both wipeDevice
(main.go:254-258) and benchmarkWriteSpeed (main.go:126-129): round down to
a multiple of 4096, with a floor of 4096. -/
def alignBufferSize (bufferSize : Nat) : Nat :=
  if (bufferSize / 4096) * 4096 < 4096 then 4096 else (bufferSize / 4096) * 4096

/-- Offset into the over-allocated array chosen by allocAlignedBuffer
(main.go:391-394): 4096 - (addr % 4096), replaced by 0 when that value is
4096 (i.e. when addr is already aligned).  addr models the runtime address
of the first element of the over-allocated array. -/
def alignOffset (addr : Nat) : Nat :=
  if 4096 - addr % 4096 = 4096 then 0 else 4096 - addr % 4096

/-- Result of allocAlignedBuffer (main.go:385-398) as the pair
(start address of the returned region, its length): the buffer slice
buffer[offset : offset+size] starts at addr + offset and has length size.
The underlying allocation has length size + 4096 (main.go:388). -/
def allocAlignedBuffer (addr size : Nat) : Nat × Nat :=
  (addr + alignOffset addr, size)

/-- Coverage percentage as computed for the progress line and the final
summary (main.go:347, 368): bytesWritten / size * 100 in float64, modelled
in ℚ. -/
def coveragePercent (size bytesWritten : Nat) : ℚ :=
  (bytesWritten : ℚ) / (size : ℚ) * 100

/-- The speed-smoothing constant (main.go:274): smoothingFactor = 0.2. -/
def smoothingFactor : ℚ := 0.2

/-- Instantaneous throughput of a progress update (main.go:321-322):
bytes processed since the last update divided by the elapsed time since
the last update (in seconds, modelled in ℚ). -/
def instantSpeedOf (lastUpdateBytes bytesProcessed : Nat) (elapsedUpdate : ℚ) : ℚ :=
  ((bytesProcessed : ℚ) - (lastUpdateBytes : ℚ)) / elapsedUpdate

/-- The smoothed-speed update of a progress update (main.go:325-329): when
the stored smoothed speed is zero it is seeded with the instantaneous
speed, otherwise the exponential moving average
smoothed * (1 - 0.2) + instant * 0.2 is taken. -/
def updateSmoothedSpeed (smoothedSpeed instantSpeed : ℚ) : ℚ :=
  if smoothedSpeed = 0 then instantSpeed
  else smoothedSpeed * (1 - smoothingFactor) + instantSpeed * smoothingFactor

/-- The ETA part of a progress update (main.go:325-334): the smoothed speed
is updated, and the ETA is always computed as remainingBytes divided by the
updated smoothed speed (line 333) - the code has no branch that reports the
ETA as unknown, so the second component is always some value.  The Option
codomain only exists so the spec's `ETA is reported as unknown` can be
stated (it would be none). -/
def etaReport (smoothedSpeed instantSpeed remainingBytes : ℚ) : ℚ × Option ℚ :=
  (updateSmoothedSpeed smoothedSpeed instantSpeed,
   some (remainingBytes / updateSmoothedSpeed smoothedSpeed instantSpeed))

/-- Final sync of wipeDevice (main.go:375-381): the sync error is only
printed as a warning (second component true when the sync failed) and the
function still returns nil (Except.ok with the final state). -/
def wipeFinish (syncOk : Bool) (s : WipeState) : Except String WipeState × Bool :=
  if syncOk = false then (Except.ok s, true) else (Except.ok s, false)

/-- State of the benchmark loop of benchmarkWriteSpeed (main.go:157-192):
the device write offset (advanced by every write) and the bytes written so
far. -/
structure BenchState where
  offset : Nat
  bytesWritten : Nat
  deriving DecidableEq

/-- Benchmark volume selection (main.go:139-153): 10 GiB by default; for a
device smaller than twice that, at most a quarter of the device, with a
floor of two buffer lengths. -/
def benchSizeOf (deviceSize bufferSize : Nat) : Nat :=
  if deviceSize < 1024 * 1024 * 1024 * 10 * 2 then
    if deviceSize / 4 < bufferSize * 2 then bufferSize * 2 else deviceSize / 4
  else 1024 * 1024 * 1024 * 10

/-- Write size of one benchmark iteration (main.go:176-179): bufferSize,
clamped to the remaining benchmark volume. -/
def benchWriteSize (benchSize bufferSize bytesWritten : Nat) : Nat :=
  if benchSize - bytesWritten < bufferSize then benchSize - bytesWritten else bufferSize

/-- One iteration of the benchmark loop (main.go:167-192), assuming the
write succeeds and returns exactly the requested count: the write advances
the device offset and the written counter by the same amount. -/
def benchStep (benchSize bufferSize : Nat) (s : BenchState) : BenchState :=
  { offset := s.offset + benchWriteSize benchSize bufferSize s.bytesWritten
    bytesWritten := s.bytesWritten + benchWriteSize benchSize bufferSize s.bytesWritten }

/-- The benchmark loop (main.go:167): while bytesWritten < benchSize, run
one iteration.  Fuel-indexed like the wipe loop. -/
def benchLoop (benchSize bufferSize fuel : Nat) : BenchState → BenchState :=
  Nat.rec (motive := fun _ => BenchState → BenchState)
    (fun s => s)
    (fun _ ih s =>
      if s.bytesWritten < benchSize then ih (benchStep benchSize bufferSize s) else s)
    fuel

/-- A full run of the benchmark loop from the offset recorded before any
benchmark write (main.go:161: originalPos) and zero bytes written. -/
def benchRun (deviceSize bufferSize originalPos : Nat) : BenchState :=
  benchLoop (benchSizeOf deviceSize bufferSize) bufferSize (benchSizeOf deviceSize bufferSize)
    { offset := originalPos, bytesWritten := 0 }

/-- The position restoration after the benchmark loop (main.go:195):
file.Seek(originalPos, 0) sets the offset back to the recorded value. -/
def benchRestore (originalPos : Nat) (s : BenchState) : BenchState :=
  { s with offset := originalPos }

/-- Error kinds of the benchmark tail, named after the spec's error kinds. -/
inductive BenchErr where
  | openFailed
  | probeFailed
  | allocFailed
  | writeFailed
  | restoreFailed
  | syncFailed
  deriving DecidableEq

/-- Tail of benchmarkWriteSpeed after the loop (main.go:194-208): first the
seek back to originalPos - a failure there returns the distinct error
`benchmark completed but failed to restore original position`
(restoreFailed) - then the sync, whose failure returns the error
`benchmark sync failed` (syncFailed); only if both succeed does the
function return normally. -/
def benchFinish (restoreOk syncOk : Bool) (originalPos : Nat) (s : BenchState) :
    Except BenchErr BenchState :=
  if restoreOk = false then Except.error BenchErr.restoreFailed
  else if syncOk = false then Except.error BenchErr.syncFailed
  else Except.ok (benchRestore originalPos s)

theorem wipeLoop_zero (size bufferSize skipFactor : Nat) (s : WipeState) :
    wipeLoop size bufferSize skipFactor 0 s = s := rfl

theorem wipeLoop_succ (size bufferSize skipFactor fuel : Nat) (s : WipeState) :
    wipeLoop size bufferSize skipFactor (fuel + 1) s =
      if s.bytesProcessed < size then
        wipeLoop size bufferSize skipFactor fuel (wipeStep size bufferSize skipFactor s)
      else s := rfl

theorem wipeLoop_of_done (size bufferSize skipFactor fuel : Nat) (s : WipeState)
    (h : size ≤ s.bytesProcessed) :
    wipeLoop size bufferSize skipFactor fuel s = s := by
  cases fuel with
  | zero => rfl
  | succ n => rw [wipeLoop_succ, if_neg (Nat.not_lt.mpr h)]

theorem wipeWriteSize_pos (size bufferSize p : Nat) (hp : p < size) (hb : 0 < bufferSize) :
    0 < wipeWriteSize size bufferSize p := by
  unfold wipeWriteSize; split <;> omega

theorem wipeWriteSize_le_buf (size bufferSize p : Nat) :
    wipeWriteSize size bufferSize p ≤ bufferSize := by
  unfold wipeWriteSize; split <;> omega

theorem wipeWriteSize_add_le (size bufferSize p : Nat) (hp : p ≤ size) :
    p + wipeWriteSize size bufferSize p ≤ size := by
  unfold wipeWriteSize; split <;> omega

theorem wipeWriteSize_eq_rem (size bufferSize p : Nat) (_hp : p ≤ size)
    (h : size - p < bufferSize) :
    wipeWriteSize size bufferSize p = size - p := by
  unfold wipeWriteSize; rw [if_pos h]

theorem wipeWriteSize_eq_buf (size bufferSize p : Nat) (hp : p ≤ size)
    (h : p + wipeWriteSize size bufferSize p < size) :
    wipeWriteSize size bufferSize p = bufferSize := by
  by_cases hc : size - p < bufferSize
  · rw [wipeWriteSize_eq_rem size bufferSize p hp hc] at h; omega
  · unfold wipeWriteSize; rw [if_neg hc]

theorem wipeSkipSize_add_le (size bufferSize skipFactor p : Nat) (hp : p ≤ size) :
    p + wipeSkipSize size bufferSize skipFactor p ≤ size := by
  unfold wipeSkipSize
  split
  · omega
  · rename_i h
    simp only [gt_iff_lt, not_lt] at h
    exact h

theorem wipeSkipSize_eq_rem (size bufferSize skipFactor p : Nat)
    (h : p + bufferSize * (skipFactor - 1) > size) :
    wipeSkipSize size bufferSize skipFactor p = size - p := by
  unfold wipeSkipSize; rw [if_pos h]

theorem wipeSkipSize_eq_stride (size bufferSize skipFactor p : Nat)
    (h : ¬ p + bufferSize * (skipFactor - 1) > size) :
    wipeSkipSize size bufferSize skipFactor p = bufferSize * (skipFactor - 1) := by
  unfold wipeSkipSize; rw [if_neg h]

theorem wipeStep_skip (size bufferSize skipFactor : Nat) (s : WipeState)
    (h : 1 < skipFactor ∧
      s.bytesProcessed + wipeWriteSize size bufferSize s.bytesProcessed < size) :
    wipeStep size bufferSize skipFactor s =
      { bytesWritten := s.bytesWritten + wipeWriteSize size bufferSize s.bytesProcessed
        bytesProcessed := s.bytesProcessed + wipeWriteSize size bufferSize s.bytesProcessed
          + wipeSkipSize size bufferSize skipFactor
              (s.bytesProcessed + wipeWriteSize size bufferSize s.bytesProcessed)
        writes := s.writes ++ [wipeWriteSize size bufferSize s.bytesProcessed]
        skips := s.skips ++ [wipeSkipSize size bufferSize skipFactor
              (s.bytesProcessed + wipeWriteSize size bufferSize s.bytesProcessed)] } := by
  simp only [wipeStep]
  rw [if_pos h]

theorem wipeStep_noskip (size bufferSize skipFactor : Nat) (s : WipeState)
    (h : ¬ (1 < skipFactor ∧
      s.bytesProcessed + wipeWriteSize size bufferSize s.bytesProcessed < size)) :
    wipeStep size bufferSize skipFactor s =
      { bytesWritten := s.bytesWritten + wipeWriteSize size bufferSize s.bytesProcessed
        bytesProcessed := s.bytesProcessed + wipeWriteSize size bufferSize s.bytesProcessed
        writes := s.writes ++ [wipeWriteSize size bufferSize s.bytesProcessed]
        skips := s.skips } := by
  simp only [wipeStep]
  rw [if_neg h]

theorem wipeStep_bytesWritten (size bufferSize skipFactor : Nat) (s : WipeState) :
    (wipeStep size bufferSize skipFactor s).bytesWritten
      = s.bytesWritten + wipeWriteSize size bufferSize s.bytesProcessed := by
  simp only [wipeStep]; split <;> rfl

theorem wipeStep_writes (size bufferSize skipFactor : Nat) (s : WipeState) :
    (wipeStep size bufferSize skipFactor s).writes
      = s.writes ++ [wipeWriteSize size bufferSize s.bytesProcessed] := by
  simp only [wipeStep]; split <;> rfl

theorem wipeStep_processed_lb (size bufferSize skipFactor : Nat) (s : WipeState) :
    s.bytesProcessed + wipeWriteSize size bufferSize s.bytesProcessed
      ≤ (wipeStep size bufferSize skipFactor s).bytesProcessed := by
  simp only [wipeStep]; split <;> dsimp only <;> omega

theorem wipeStep_processed_le (size bufferSize skipFactor : Nat) (s : WipeState)
    (hp : s.bytesProcessed ≤ size) :
    (wipeStep size bufferSize skipFactor s).bytesProcessed ≤ size := by
  have h1 := wipeWriteSize_add_le size bufferSize s.bytesProcessed hp
  have h2 := wipeSkipSize_add_le size bufferSize skipFactor
    (s.bytesProcessed + wipeWriteSize size bufferSize s.bytesProcessed) h1
  simp only [wipeStep]; split <;> dsimp only <;> omega

theorem wipeLoop_processed (size bufferSize skipFactor : Nat) (hb : 0 < bufferSize) :
    ∀ (fuel : Nat) (s : WipeState), s.bytesProcessed ≤ size →
      size ≤ s.bytesProcessed + fuel →
      (wipeLoop size bufferSize skipFactor fuel s).bytesProcessed = size := by
  intro fuel
  induction fuel with
  | zero => intro s h1 h2; rw [wipeLoop_zero]; omega
  | succ n ih =>
    intro s h1 h2
    rw [wipeLoop_succ]
    by_cases hlt : s.bytesProcessed < size
    · rw [if_pos hlt]
      have hpos := wipeWriteSize_pos size bufferSize s.bytesProcessed hlt hb
      have hlb := wipeStep_processed_lb size bufferSize skipFactor s
      have hle := wipeStep_processed_le size bufferSize skipFactor s (Nat.le_of_lt hlt)
      exact ih _ hle (by omega)
    · rw [if_neg hlt]; omega

theorem wipeLoop_written (size bufferSize skipFactor : Nat) :
    ∀ (fuel : Nat) (s : WipeState),
      s.writes.sum = s.bytesWritten → s.bytesWritten ≤ s.bytesProcessed →
      (wipeLoop size bufferSize skipFactor fuel s).writes.sum
          = (wipeLoop size bufferSize skipFactor fuel s).bytesWritten ∧
      (wipeLoop size bufferSize skipFactor fuel s).bytesWritten
          ≤ (wipeLoop size bufferSize skipFactor fuel s).bytesProcessed := by
  intro fuel
  induction fuel with
  | zero => intro s h1 h2; rw [wipeLoop_zero]; exact ⟨h1, h2⟩
  | succ n ih =>
    intro s h1 h2
    rw [wipeLoop_succ]
    by_cases hlt : s.bytesProcessed < size
    · rw [if_pos hlt]
      apply ih
      · rw [wipeStep_writes, wipeStep_bytesWritten, List.sum_append, h1]
        simp
      · have := wipeStep_processed_lb size bufferSize skipFactor s
        rw [wipeStep_bytesWritten]
        omega
    · rw [if_neg hlt]; exact ⟨h1, h2⟩

theorem wipeStep_one (size bufferSize : Nat) (s : WipeState) :
    wipeStep size bufferSize 1 s =
      { bytesWritten := s.bytesWritten + wipeWriteSize size bufferSize s.bytesProcessed
        bytesProcessed := s.bytesProcessed + wipeWriteSize size bufferSize s.bytesProcessed
        writes := s.writes ++ [wipeWriteSize size bufferSize s.bytesProcessed]
        skips := s.skips } := by
  exact wipeStep_noskip size bufferSize 1 s (fun h => absurd h.1 (lt_irrefl 1))

theorem wipeLoop_one (size bufferSize : Nat) :
    ∀ (fuel : Nat) (s : WipeState),
      s.bytesWritten = s.bytesProcessed → s.skips = [] →
      (wipeLoop size bufferSize 1 fuel s).bytesWritten
          = (wipeLoop size bufferSize 1 fuel s).bytesProcessed ∧
      (wipeLoop size bufferSize 1 fuel s).skips = [] := by
  intro fuel
  induction fuel with
  | zero => intro s h1 h2; rw [wipeLoop_zero]; exact ⟨h1, h2⟩
  | succ n ih =>
    intro s h1 h2
    rw [wipeLoop_succ]
    by_cases hlt : s.bytesProcessed < size
    · rw [if_pos hlt]
      apply ih
      · rw [wipeStep_one]; dsimp only; omega
      · rw [wipeStep_one]; exact h2
    · rw [if_neg hlt]; exact ⟨h1, h2⟩

theorem mul_pred_add (a k : Nat) (hk : 1 ≤ k) : a * k = a * (k - 1) + a := by
  cases k with
  | zero => exact absurd hk (by omega)
  | succ m => simp [Nat.mul_succ]

theorem wipeLoop_cov (size bufferSize skipFactor : Nat) (hb : 0 < bufferSize)
    (hk : 1 < skipFactor) :
    ∀ (fuel : Nat) (s : WipeState), s.bytesProcessed ≤ size →
      size ≤ s.bytesProcessed + fuel →
      s.bytesProcessed = s.bytesWritten * skipFactor →
      size ≤ (wipeLoop size bufferSize skipFactor fuel s).bytesWritten * skipFactor ∧
      (wipeLoop size bufferSize skipFactor fuel s).bytesWritten * skipFactor
          ≤ size + bufferSize * (skipFactor - 1) := by
  intro fuel
  induction fuel with
  | zero =>
    intro s h1 h2 hinv
    rw [wipeLoop_zero]
    have hps : s.bytesProcessed = size := by omega
    rw [hps] at hinv
    exact ⟨le_of_eq hinv, by rw [← hinv]; exact Nat.le_add_right _ _⟩
  | succ n ih =>
    intro s h1 h2 hinv
    rw [wipeLoop_succ]
    by_cases hlt : s.bytesProcessed < size
    · rw [if_pos hlt]
      set t := wipeStep size bufferSize skipFactor s with ht
      have hadd := wipeWriteSize_add_le size bufferSize s.bytesProcessed (Nat.le_of_lt hlt)
      have hwsb := wipeWriteSize_le_buf size bufferSize s.bytesProcessed
      by_cases hsk : s.bytesProcessed + wipeWriteSize size bufferSize s.bytesProcessed < size
      · have hwb : wipeWriteSize size bufferSize s.bytesProcessed = bufferSize :=
          wipeWriteSize_eq_buf size bufferSize s.bytesProcessed (Nat.le_of_lt hlt) hsk
        have hcond : 1 < skipFactor ∧
            s.bytesProcessed + wipeWriteSize size bufferSize s.bytesProcessed < size :=
          ⟨hk, hsk⟩
        rw [hwb] at hsk
        by_cases hcl : s.bytesProcessed + bufferSize + bufferSize * (skipFactor - 1) > size
        · have hskv : wipeSkipSize size bufferSize skipFactor
              (s.bytesProcessed + bufferSize) = size - (s.bytesProcessed + bufferSize) :=
            wipeSkipSize_eq_rem size bufferSize skipFactor _ hcl
          have hPt : t.bytesProcessed = size := by
            rw [ht, wipeStep_skip size bufferSize skipFactor s hcond]
            dsimp only
            rw [hwb, hskv]
            omega
          have hWt : t.bytesWritten = s.bytesWritten + bufferSize := by
            rw [ht, wipeStep_skip size bufferSize skipFactor s hcond]
            dsimp only
            rw [hwb]
          rw [wipeLoop_of_done size bufferSize skipFactor n t (le_of_eq hPt.symm), hWt]
          have e1 : (s.bytesWritten + bufferSize) * skipFactor
              = s.bytesWritten * skipFactor + bufferSize * skipFactor := Nat.add_mul _ _ _
          have e3 : bufferSize * skipFactor
              = bufferSize * (skipFactor - 1) + bufferSize :=
            mul_pred_add bufferSize skipFactor (by omega)
          constructor <;> linarith [e1, e3, hinv, hcl, hsk]
        · have hskv : wipeSkipSize size bufferSize skipFactor
              (s.bytesProcessed + bufferSize) = bufferSize * (skipFactor - 1) :=
            wipeSkipSize_eq_stride size bufferSize skipFactor _ hcl
          have hPt : t.bytesProcessed
              = s.bytesProcessed + bufferSize + bufferSize * (skipFactor - 1) := by
            rw [ht, wipeStep_skip size bufferSize skipFactor s hcond]
            dsimp only
            rw [hwb, hskv]
          have hWt : t.bytesWritten = s.bytesWritten + bufferSize := by
            rw [ht, wipeStep_skip size bufferSize skipFactor s hcond]
            dsimp only
            rw [hwb]
          have e1 : (s.bytesWritten + bufferSize) * skipFactor
              = s.bytesWritten * skipFactor + bufferSize * skipFactor := Nat.add_mul _ _ _
          have e3 : bufferSize * skipFactor
              = bufferSize * (skipFactor - 1) + bufferSize :=
            mul_pred_add bufferSize skipFactor (by omega)
          have hInvt : t.bytesProcessed = t.bytesWritten * skipFactor := by
            rw [hPt, hWt, e1, e3, ← hinv]
            generalize bufferSize * (skipFactor - 1) = d
            omega
          have hle2 : t.bytesProcessed ≤ size := by
            rw [hPt]
            revert hcl
            generalize bufferSize * (skipFactor - 1) = d
            intro hcl
            omega
          have hfuel : size ≤ t.bytesProcessed + n := by
            rw [hPt]
            generalize bufferSize * (skipFactor - 1) = d
            omega
          exact ih t hle2 hfuel hInvt
      · have hns : ¬ (1 < skipFactor ∧
            s.bytesProcessed + wipeWriteSize size bufferSize s.bytesProcessed < size) :=
          fun h => hsk h.2
        have hpws : s.bytesProcessed + wipeWriteSize size bufferSize s.bytesProcessed
            = size := by omega
        have hPt : t.bytesProcessed = size := by
          rw [ht, wipeStep_noskip size bufferSize skipFactor s hns]
          exact hpws
        have hWt : t.bytesWritten
            = s.bytesWritten + wipeWriteSize size bufferSize s.bytesProcessed := by
          rw [ht, wipeStep_noskip size bufferSize skipFactor s hns]
        rw [wipeLoop_of_done size bufferSize skipFactor n t (le_of_eq hPt.symm), hWt]
        have e1 : (s.bytesWritten + wipeWriteSize size bufferSize s.bytesProcessed)
              * skipFactor
            = s.bytesWritten * skipFactor
              + wipeWriteSize size bufferSize s.bytesProcessed * skipFactor :=
          Nat.add_mul _ _ _
        have e2 : wipeWriteSize size bufferSize s.bytesProcessed * skipFactor
            = wipeWriteSize size bufferSize s.bytesProcessed * (skipFactor - 1)
              + wipeWriteSize size bufferSize s.bytesProcessed :=
          mul_pred_add _ skipFactor (by omega)
        have e4 : wipeWriteSize size bufferSize s.bytesProcessed * (skipFactor - 1)
            ≤ bufferSize * (skipFactor - 1) :=
          Nat.mul_le_mul_right _ hwsb
        constructor <;>
          linarith [e1, e2, e4, hinv, hpws,
            Nat.zero_le (wipeWriteSize size bufferSize s.bytesProcessed * (skipFactor - 1))]
    · rw [if_neg hlt]
      have hps : s.bytesProcessed = size := by omega
      rw [hps] at hinv
      exact ⟨le_of_eq hinv, by rw [← hinv]; exact Nat.le_add_right _ _⟩

theorem benchLoop_zero (benchSize bufferSize : Nat) (s : BenchState) :
    benchLoop benchSize bufferSize 0 s = s := rfl

theorem benchLoop_succ (benchSize bufferSize fuel : Nat) (s : BenchState) :
    benchLoop benchSize bufferSize (fuel + 1) s =
      if s.bytesWritten < benchSize then
        benchLoop benchSize bufferSize fuel (benchStep benchSize bufferSize s)
      else s := rfl

theorem benchWriteSize_pos (benchSize bufferSize w : Nat) (hw : w < benchSize)
    (hb : 0 < bufferSize) : 0 < benchWriteSize benchSize bufferSize w := by
  unfold benchWriteSize; split <;> omega

theorem benchWriteSize_add_le (benchSize bufferSize w : Nat) (hw : w ≤ benchSize) :
    w + benchWriteSize benchSize bufferSize w ≤ benchSize := by
  unfold benchWriteSize; split <;> omega

theorem benchLoop_writtenEq (benchSize bufferSize : Nat) (hb : 0 < bufferSize) :
    ∀ (fuel : Nat) (s : BenchState), s.bytesWritten ≤ benchSize →
      benchSize ≤ s.bytesWritten + fuel →
      (benchLoop benchSize bufferSize fuel s).bytesWritten = benchSize := by
  intro fuel
  induction fuel with
  | zero => intro s h1 h2; rw [benchLoop_zero]; omega
  | succ n ih =>
    intro s h1 h2
    rw [benchLoop_succ]
    by_cases hlt : s.bytesWritten < benchSize
    · rw [if_pos hlt]
      have hpos := benchWriteSize_pos benchSize bufferSize s.bytesWritten hlt hb
      have hadd := benchWriteSize_add_le benchSize bufferSize s.bytesWritten (Nat.le_of_lt hlt)
      apply ih
      · simp only [benchStep]; omega
      · simp only [benchStep]; omega
    · rw [if_neg hlt]; omega

theorem benchLoop_offset (benchSize bufferSize : Nat) :
    ∀ (fuel : Nat) (s : BenchState),
      (benchLoop benchSize bufferSize fuel s).offset + s.bytesWritten
        = s.offset + (benchLoop benchSize bufferSize fuel s).bytesWritten := by
  intro fuel
  induction fuel with
  | zero => intro s; rw [benchLoop_zero]
  | succ n ih =>
    intro s
    rw [benchLoop_succ]
    by_cases hlt : s.bytesWritten < benchSize
    · rw [if_pos hlt]
      have ihs := ih (benchStep benchSize bufferSize s)
      simp only [benchStep] at ihs ⊢
      omega
    · rw [if_neg hlt]

/-- C1: for every size > 0 and bufferSize > 0, a full wipe with
skipFactor = 1 in which every write succeeds ends with
bytesWritten = bytesProcessed = size, the write sizes issued by the loop
sum to size, and no skip is ever issued. -/
theorem c1_full_wipe_totals (size bufferSize : Nat) (_hs : 0 < size) (hb : 0 < bufferSize) :
    (wipeRun size bufferSize 1).bytesWritten = size ∧
    (wipeRun size bufferSize 1).bytesProcessed = size ∧
    (wipeRun size bufferSize 1).writes.sum = size ∧
    (wipeRun size bufferSize 1).skips = [] := by
  have hproc := wipeLoop_processed size bufferSize 1 hb size
    { bytesWritten := 0, bytesProcessed := 0, writes := [], skips := [] }
    (Nat.zero_le size) (by omega)
  have hw := wipeLoop_written size bufferSize 1 size
    { bytesWritten := 0, bytesProcessed := 0, writes := [], skips := [] }
    rfl (Nat.le_refl 0)
  have hone := wipeLoop_one size bufferSize size
    { bytesWritten := 0, bytesProcessed := 0, writes := [], skips := [] } rfl rfl
  unfold wipeRun
  refine ⟨?_, hproc, ?_, hone.2⟩
  · rw [hone.1, hproc]
  · rw [hw.1, hone.1, hproc]

/-- Witness for C1 at size = 5, bufferSize = 2. -/
theorem c1_full_wipe_totals_witness :
    0 < 5 ∧ 0 < 2 ∧ (wipeRun 5 2 1).bytesWritten = 5 :=
  ⟨by decide, by decide, (c1_full_wipe_totals 5 2 (by decide) (by decide)).1⟩

/-- C2: for every size > 0, bufferSize > 0 and skipFactor >= 1, assuming
every write returns the requested count and every seek succeeds, the
processed-byte counter never exceeds size at any point of the loop (the
per-iteration write size and skip size are each clamped to the remaining
bytes, and one whole step preserves the bound), and the loop terminates
with bytesProcessed exactly equal to size. -/
theorem c2_processed_invariant (size bufferSize skipFactor : Nat)
    (_hs : 0 < size) (hb : 0 < bufferSize) (_hk : 1 ≤ skipFactor) :
    (∀ p : Nat, p ≤ size → p + wipeWriteSize size bufferSize p ≤ size) ∧
    (∀ p : Nat, p ≤ size → size - p < bufferSize →
      wipeWriteSize size bufferSize p = size - p) ∧
    (∀ p : Nat, p ≤ size → p + wipeSkipSize size bufferSize skipFactor p ≤ size) ∧
    (∀ p : Nat, p + bufferSize * (skipFactor - 1) > size →
      wipeSkipSize size bufferSize skipFactor p = size - p) ∧
    (∀ s : WipeState, s.bytesProcessed ≤ size →
      (wipeStep size bufferSize skipFactor s).bytesProcessed ≤ size) ∧
    (wipeRun size bufferSize skipFactor).bytesProcessed = size :=
  ⟨fun p hp => wipeWriteSize_add_le size bufferSize p hp,
   fun p hp h => wipeWriteSize_eq_rem size bufferSize p hp h,
   fun p hp => wipeSkipSize_add_le size bufferSize skipFactor p hp,
   fun p h => wipeSkipSize_eq_rem size bufferSize skipFactor p h,
   fun s h => wipeStep_processed_le size bufferSize skipFactor s h,
   wipeLoop_processed size bufferSize skipFactor hb size
     { bytesWritten := 0, bytesProcessed := 0, writes := [], skips := [] }
     (Nat.zero_le size) (by omega)⟩

/-- Witness for C2 at size = 3, bufferSize = 2, skipFactor = 2. -/
theorem c2_processed_invariant_witness :
    0 < 3 ∧ 0 < 2 ∧ 1 ≤ 2 ∧ (wipeRun 3 2 2).bytesProcessed = 3 :=
  ⟨by decide, by decide, by decide,
   (c2_processed_invariant 3 2 2 (by decide) (by decide) (by decide)).2.2.2.2.2⟩

/-- C3: for every size > 0, bufferSize > 0 and skipFactor > 1, with all
writes and seeks succeeding, the run ends with
bytesWritten <= bytesProcessed = size, and bytesWritten is within one
buffer of size / skipFactor: size <= bytesWritten * skipFactor <=
size + bufferSize * (skipFactor - 1).  In particular, for size = 100000,
bufferSize = 4096, skipFactor = 5, every iteration writes 4096 bytes and
skips 16384 bytes (the last skip clamped to 13984), terminating with
bytesProcessed = 100000 and bytesWritten = 20480, within one buffer of
20000. -/
theorem c3_partial_wipe_coverage (size bufferSize skipFactor : Nat)
    (_hs : 0 < size) (hb : 0 < bufferSize) (hk : 1 < skipFactor) :
    (wipeRun size bufferSize skipFactor).bytesWritten
        ≤ (wipeRun size bufferSize skipFactor).bytesProcessed ∧
    (wipeRun size bufferSize skipFactor).bytesProcessed = size ∧
    size ≤ (wipeRun size bufferSize skipFactor).bytesWritten * skipFactor ∧
    (wipeRun size bufferSize skipFactor).bytesWritten * skipFactor
        ≤ size + bufferSize * (skipFactor - 1) ∧
    (wipeRun 100000 4096 5).writes = [4096, 4096, 4096, 4096, 4096] ∧
    (wipeRun 100000 4096 5).skips = [16384, 16384, 16384, 16384, 13984] ∧
    (wipeRun 100000 4096 5).bytesProcessed = 100000 ∧
    (wipeRun 100000 4096 5).bytesWritten = 20480 ∧
    20000 ≤ (wipeRun 100000 4096 5).bytesWritten ∧
    (wipeRun 100000 4096 5).bytesWritten ≤ 20000 + 4096 := by
  have hw := wipeLoop_written size bufferSize skipFactor size
    { bytesWritten := 0, bytesProcessed := 0, writes := [], skips := [] }
    rfl (Nat.le_refl 0)
  have hproc := wipeLoop_processed size bufferSize skipFactor hb size
    { bytesWritten := 0, bytesProcessed := 0, writes := [], skips := [] }
    (Nat.zero_le size) (by omega)
  have hcov := wipeLoop_cov size bufferSize skipFactor hb hk size
    { bytesWritten := 0, bytesProcessed := 0, writes := [], skips := [] }
    (Nat.zero_le size) (by omega) (Nat.zero_mul skipFactor).symm
  unfold wipeRun
  exact ⟨hw.2, hproc, hcov.1, hcov.2, by decide, by decide, by decide, by decide,
    by decide, by decide⟩

/-- Witness for C3 at size = 10, bufferSize = 3, skipFactor = 2. -/
theorem c3_partial_wipe_coverage_witness :
    0 < 10 ∧ 0 < 3 ∧ 1 < 2 ∧ (wipeRun 10 3 2).bytesProcessed = 10 :=
  ⟨by decide, by decide, by decide,
   (c3_partial_wipe_coverage 10 3 2 (by decide) (by decide) (by decide)).2.1⟩

/-- C4 (code bug): for bufferSize = 5000 the aligned buffer allocated by
wipeDevice and benchmarkWriteSpeed has length
alignBufferSize 5000 = 4096, yet the per-iteration write size is computed
from bufferSize, not from the aligned size: with device size 10000 the
first wipe iteration and the first benchmark iteration both slice
buffer[:5000] out of a 4096-byte buffer. -/
theorem c4_buffer_overrun :
    alignBufferSize 5000 = 4096 ∧
    wipeWriteSize 10000 5000 0 = 5000 ∧
    benchWriteSize (benchSizeOf 10000 5000) 5000 0 = 5000 ∧
    alignBufferSize 5000 < wipeWriteSize 10000 5000 0 ∧
    alignBufferSize 5000 < benchWriteSize (benchSizeOf 10000 5000) 5000 0 := by
  refine ⟨rfl, rfl, ?_, ?_, ?_⟩ <;> decide

/-- C5 counterexample: at a progress update where the stored smoothed
speed is zero (the first update), the code does not report the ETA as
unknown - it seeds the smoothed speed with the instantaneous speed and
computes ETA = remaining / seeded speed (here 5000 / 1000 = 5 seconds). -/
theorem c5_eta_computed_counterexample :
    (etaReport 0 1000 5000).2 = some 5 ∧ (etaReport 0 1000 5000).2 ≠ none := by
  constructor
  · show some ((5000 : ℚ) / updateSmoothedSpeed 0 1000) = some 5
    norm_num [updateSmoothedSpeed]
  · show some ((5000 : ℚ) / updateSmoothedSpeed 0 1000) ≠ none
    simp

/-- C5 amended: the code has no unknown-ETA branch; every progress update
computes ETA = remaining / updated smoothed speed.  The division is by a
positive quantity whenever the stored smoothed speed is non-negative and
the instantaneous speed is positive - which holds for every update the
wipe loop emits, since at least one byte is processed between consecutive
updates. -/
theorem c5_eta_divisor_positive (smoothedSpeed instantSpeed remainingBytes : ℚ)
    (h0 : 0 ≤ smoothedSpeed) (h1 : 0 < instantSpeed) :
    0 < (etaReport smoothedSpeed instantSpeed remainingBytes).1 ∧
    (etaReport smoothedSpeed instantSpeed remainingBytes).2 =
      some (remainingBytes / (etaReport smoothedSpeed instantSpeed remainingBytes).1) := by
  refine ⟨?_, rfl⟩
  show 0 < updateSmoothedSpeed smoothedSpeed instantSpeed
  unfold updateSmoothedSpeed
  split
  · exact h1
  · have ha : 0 ≤ smoothedSpeed * (1 - smoothingFactor) := by
      apply mul_nonneg h0
      norm_num [smoothingFactor]
    have hbp : 0 < instantSpeed * smoothingFactor := by
      apply mul_pos h1
      norm_num [smoothingFactor]
    linarith

/-- Witness for the amended C5 at smoothed = 0, instant = 1000,
remaining = 5000. -/
theorem c5_eta_divisor_positive_witness :
    (0 : ℚ) ≤ 0 ∧ (0 : ℚ) < 1000 ∧ 0 < (etaReport 0 1000 5000).1 :=
  ⟨le_refl 0, by norm_num, (c5_eta_divisor_positive 0 1000 5000 (le_refl 0) (by norm_num)).1⟩

/-- C6 counterexample: for size = 20000, bufferSize = 4096, skipFactor = 1
the loop's write sizes are 4096, 4096, 4096, 4096, 3616 (the claimed
final write of 3264 is wrong - indeed 4096 * 4 + 3264 = 19648, not
20000). -/
theorem c6_writes_counterexample :
    (wipeRun 20000 4096 1).writes = [4096, 4096, 4096, 4096, 3616] ∧
    (wipeRun 20000 4096 1).writes ≠ [4096, 4096, 4096, 4096, 3264] ∧
    4096 * 4 + 3264 ≠ 20000 := by
  refine ⟨?_, ?_, ?_⟩ <;> decide

/-- C6 amended: for device size 20000, bufferSize 4096 and skipFactor 1
(all writes succeeding) the wipe's iterations write
4096 * 4 + 3616 = 20000 bytes in total, zero bytes are skipped, and the
coverage reported by the final summary formula equals 100 percent (the
full totals: bytesWritten = bytesProcessed = 20000). -/
theorem c6_full_wipe_20000 :
    wipeRun 20000 4096 1 =
      { bytesWritten := 20000, bytesProcessed := 20000
        writes := [4096, 4096, 4096, 4096, 3616], skips := [] } ∧
    (wipeRun 20000 4096 1).writes.sum = 20000 ∧
    coveragePercent 20000 (wipeRun 20000 4096 1).bytesWritten = 100 := by
  refine ⟨by decide, by decide, ?_⟩
  have h : (wipeRun 20000 4096 1).bytesWritten = 20000 := by decide
  rw [h]
  norm_num [coveragePercent]

/-- C7 counterexample: in the benchmark pass a final sync failure is
fatal - benchmarkWriteSpeed returns the error `benchmark sync failed`
instead of treating the pass as complete with a warning. -/
theorem c7_bench_sync_fatal_counterexample :
    benchFinish true false 0 { offset := 0, bytesWritten := 0 }
      = Except.error BenchErr.syncFailed := rfl

/-- C7 amended: a failing final sync is non-fatal in the wipe pass only:
wipeDevice prints a warning and still returns nil, whereas
benchmarkWriteSpeed returns the error `benchmark sync failed` when its
final sync fails. -/
theorem c7_sync_nonfatal_wipe_only :
    (∀ (s : WipeState), (wipeFinish false s).1 = Except.ok s ∧ (wipeFinish false s).2 = true) ∧
    (∀ (s : WipeState), (wipeFinish true s).1 = Except.ok s ∧ (wipeFinish true s).2 = false) ∧
    (∀ (originalPos : Nat) (s : BenchState),
      benchFinish true false originalPos s = Except.error BenchErr.syncFailed) :=
  ⟨fun _ => ⟨rfl, rfl⟩, fun _ => ⟨rfl, rfl⟩, fun _ _ => rfl⟩

/-- C8: for every device size, every positive buffer size (hence every
benchmark volume, including the reduced small-device case) and every
recorded offset, a successful benchmark run writes exactly the benchmark
volume, advances the offset by exactly that volume, and the restoration
seek puts the offset back to exactly the recorded value; a failure to
restore the offset is reported as the distinct restoreFailed error, not as
a write or sync failure. -/
theorem c8_bench_restores_offset (deviceSize bufferSize originalPos : Nat)
    (hb : 0 < bufferSize) :
    (benchRun deviceSize bufferSize originalPos).bytesWritten
        = benchSizeOf deviceSize bufferSize ∧
    (benchRun deviceSize bufferSize originalPos).offset
        = originalPos + benchSizeOf deviceSize bufferSize ∧
    (benchRestore originalPos (benchRun deviceSize bufferSize originalPos)).offset
        = originalPos ∧
    benchFinish true true originalPos (benchRun deviceSize bufferSize originalPos)
        = Except.ok (benchRestore originalPos (benchRun deviceSize bufferSize originalPos)) ∧
    (∀ (syncOk : Bool) (s : BenchState),
      benchFinish false syncOk originalPos s = Except.error BenchErr.restoreFailed) ∧
    BenchErr.restoreFailed ≠ BenchErr.syncFailed ∧
    BenchErr.restoreFailed ≠ BenchErr.writeFailed := by
  have hwr := benchLoop_writtenEq (benchSizeOf deviceSize bufferSize) bufferSize hb
    (benchSizeOf deviceSize bufferSize) { offset := originalPos, bytesWritten := 0 }
    (Nat.zero_le _) (by omega)
  unfold benchRun
  refine ⟨hwr, ?_, rfl, rfl, fun _ _ => rfl, by decide, by decide⟩
  have hoff := benchLoop_offset (benchSizeOf deviceSize bufferSize) bufferSize
    (benchSizeOf deviceSize bufferSize) { offset := originalPos, bytesWritten := 0 }
  dsimp only at hoff
  omega

/-- Witness for C8 at deviceSize = 50000, bufferSize = 4096,
originalPos = 7 (the reduced small-device case: the benchmark volume is
50000 / 4 = 12500). -/
theorem c8_bench_restores_offset_witness :
    0 < 4096 ∧ (benchRun 50000 4096 7).offset = 7 + benchSizeOf 50000 4096 :=
  ⟨by decide, (c8_bench_restores_offset 50000 4096 7 (by decide)).2.1⟩

/-- C9: for every size >= 4096 and every base address of the
over-allocated array, allocation of the (rounded) aligned buffer size
yields a region whose start address is congruent to 0 modulo 4096, whose
slicing offset equals (4096 - address mod 4096) mod 4096, and whose
length is size rounded down to a multiple of 4096 (at least 4096); the
offset plus the length stays within the over-allocation of one extra
alignment unit. -/
theorem c9_aligned_allocation (addr size : Nat) (h : 4096 ≤ size) :
    (allocAlignedBuffer addr (alignBufferSize size)).1 % 4096 = 0 ∧
    alignOffset addr = (4096 - addr % 4096) % 4096 ∧
    (allocAlignedBuffer addr (alignBufferSize size)).2 = (size / 4096) * 4096 ∧
    4096 ≤ (allocAlignedBuffer addr (alignBufferSize size)).2 ∧
    alignOffset addr + alignBufferSize size ≤ alignBufferSize size + 4096 := by
  simp only [allocAlignedBuffer, alignOffset, alignBufferSize]
  refine ⟨?_, ?_, ?_, ?_, ?_⟩ <;> split_ifs <;> omega

/-- Witness for C9 at addr = 5, size = 10000. -/
theorem c9_aligned_allocation_witness :
    4096 ≤ 10000 ∧ (allocAlignedBuffer 5 (alignBufferSize 10000)).1 % 4096 = 0 :=
  ⟨by decide, (c9_aligned_allocation 5 10000 (by decide)).1⟩

/-- C10: the smoothed throughput is the exponential moving average
smoothed * (1 - 0.2) + instant * 0.2 with smoothing factor 0.2, seeded
directly by the first instantaneous measurement; for the sample stream
(t=0, b=0), (t=1, b=1000), (t=2, b=3000) the instantaneous speeds are
1000 and 2000 and the smoothed speed after the second measurement is
1000 * 0.8 + 2000 * 0.2 = 1200. -/
theorem c10_smoothed_speed_ema :
    (∀ i : ℚ, updateSmoothedSpeed 0 i = i) ∧
    (∀ s i : ℚ, s ≠ 0 →
      updateSmoothedSpeed s i = s * (1 - 0.2) + i * 0.2) ∧
    instantSpeedOf 0 1000 1 = 1000 ∧
    instantSpeedOf 1000 3000 1 = 2000 ∧
    updateSmoothedSpeed (updateSmoothedSpeed 0 (instantSpeedOf 0 1000 1))
        (instantSpeedOf 1000 3000 1) = 1200 := by
  refine ⟨?_, ?_, ?_, ?_, ?_⟩
  · intro i
    simp [updateSmoothedSpeed]
  · intro s i hs
    rw [updateSmoothedSpeed, if_neg hs]
    norm_num [smoothingFactor]
  · norm_num [instantSpeedOf]
  · norm_num [instantSpeedOf]
  · norm_num [updateSmoothedSpeed, instantSpeedOf, smoothingFactor]

/-- Witness for C10 at smoothed = 1000, instant = 2000. -/
theorem c10_smoothed_speed_ema_witness :
    (1000 : ℚ) ≠ 0 ∧ updateSmoothedSpeed 1000 2000 = 1000 * (1 - 0.2) + 2000 * 0.2 :=
  ⟨by norm_num, c10_smoothed_speed_ema.2.1 1000 2000 (by norm_num)⟩

end Quickwipe
